import Mathlib

/-!
Shallow embedding of the crisp expression evaluator (src/crisp/src/eval.rs).
Numbers are modelled as `Int` carrying `i32` values; the arithmetic folds
of the `+`, `-` and `*` built-ins reduce each step to two's-complement
32 bits with `wrap32` (an explicit `% 2^32`), the release-profile `i32`
semantics (a debug build would panic at the same overflow — either way the
mathematical sum is not returned on overflow).  The mutable environment (`HashMap<String, Expr>`) is
modelled as an association list with unique keys, threaded explicitly.
The mutable `marked: &mut [bool]` slice of `curry` is modelled by threading
a `List Bool` through, returned even on error (mutations in Rust persist
past an `Err` return).  The trampoline loop of `Context::eval` is modelled
with a fuel parameter; exhaustion is the distinguished outcome `.outOfFuel`.
-/

namespace Crisp

/-- Built-in operator tags.  The enum declaration itself sits in crisp's
parser module (not among the staged files); the thirteen variants are read
off the exhaustive `BuiltIn` match in `Context::eval` (eval.rs:158-199),
matching the spec's operator set. -/
inductive BuiltIn where
  | plus | minus | times | divide
  | equal | notEqual
  | less | greater | lessEqual | greaterEqual
  | and | or | not
deriving DecidableEq, Repr

/-- Leaf atoms: `Number(i32)`, `Symbol(String)`, `BuiltIn(..)`.  Declared in
crisp's parser module; the payload shapes are read off their uses in
eval.rs and spec section 3.  The number payload is an `Int` holding an
`i32` value (see `isI32`); the arithmetic built-ins wrap each step to
32 bits with `wrap32`, so no operation leaves the `i32` range. -/
inductive Atom where
  | number (n : Int)
  | symbol (s : String)
  | builtIn (b : BuiltIn)
deriving DecidableEq, Repr

/-- The expression / value tree.  Declared in crisp's parser module; the
variants and payloads are read off their uses in eval.rs (`Call(Box<Expr>,
Vec<Expr>)`, `If(Box<Expr>, Box<Expr>, Option<Box<Expr>>)`, `Let(Vec<(Atom,
Box<Expr>)>)`, `Function(Vec<Expr>, Box<Expr>)`, `Quote(Vec<Expr>)`,
`Constant(Atom)`, `Nil`) and spec section 3. -/
inductive Expr where
  | constant (a : Atom)
  | nil
  | quote (items : List Expr)
  | lett (bindings : List (Atom × Expr))
  | ite (predicate : Expr) (thenB : Expr) (otherwise : Option Expr)
  | call (head : Expr) (tail : List Expr)
  | function (params : List Expr) (body : Expr)

mutual

/-- Structural equality on expressions, mirroring Rust's
`#[derive(PartialEq)]` on `Expr` (used by `curry`'s `position` test and by
the `=` / `≠` built-ins). -/
def beqExpr : Expr → Expr → Bool
  | .constant a, .constant b => a == b
  | .nil, .nil => true
  | .quote xs, .quote ys => beqExprList xs ys
  | .lett xs, .lett ys => beqBindings xs ys
  | .ite p t o, .ite p' t' o' => beqExpr p p' && beqExpr t t' && beqOptExpr o o'
  | .call h t, .call h' t' => beqExpr h h' && beqExprList t t'
  | .function ps b, .function ps' b' => beqExprList ps ps' && beqExpr b b'
  | _, _ => false
termination_by structural a => a

/-- Pointwise structural equality of expression lists. -/
def beqExprList : List Expr → List Expr → Bool
  | [], [] => true
  | x :: xs, y :: ys => beqExpr x y && beqExprList xs ys
  | _, _ => false
termination_by structural a => a

/-- Pointwise structural equality of `Let` binding lists. -/
def beqBindings : List (Atom × Expr) → List (Atom × Expr) → Bool
  | [], [] => true
  | (a, e) :: xs, (a', e') :: ys => a == a' && beqExpr e e' && beqBindings xs ys
  | _, _ => false
termination_by structural a => a

/-- Structural equality of optional expressions. -/
def beqOptExpr : Option Expr → Option Expr → Bool
  | none, none => true
  | some a, some b => beqExpr a b
  | _, _ => false
termination_by structural a => a

end

instance : BEq Expr := ⟨beqExpr⟩

/-- Evaluation errors; each constructor corresponds to one `bail!` site in
the source, plus `panicDivByZero` for the host panic of native `/` on zero,
and `outOfFuel` for the fuel artifact of the embedding. -/
inductive Error where
  | invalidNumber (e : Expr)
  | invalidVariable (s : String)
  | expectedSymbol (a : Atom)
  | noBranch (predicate : Expr)
  | indexOutOfBounds
  | minusArity (n : Nat)
  | divideArity (n : Nat)
  | notArity (n : Nat)
  | panicDivByZero
  | outOfFuel

abbrev Env := List (String × Expr)

/-- `HashMap::get`. -/
def envLookup : Env → String → Option Expr
  | [], _ => none
  | (k, v) :: rest, s => if k = s then some v else envLookup rest s

/-- `HashMap::insert` (overwrite on collision). -/
def envInsert : Env → String → Expr → Env
  | [], k, v => [(k, v)]
  | (k', v') :: rest, k, v =>
    if k' = k then (k, v) :: rest else (k', v') :: envInsert rest k v

/-- Reduce an integer to two's-complement 32 bits (2147483648 = 2^31,
4294967296 = 2^32): the value the host's wrapping `i32` arithmetic keeps
after each `+`, `-` or `*` step. -/
def wrap32 (n : Int) : Int := (n + 2147483648) % 4294967296 - 2147483648

/-- The `i32` range of the source's `Number` payload. -/
def isI32 (n : Int) : Prop := -2147483648 ≤ n ∧ n < 2147483648

/-- `expr_to_number`: succeeds only on `Constant(Number(n))`. -/
def exprToNumber : Expr → Except Error Int
  | .constant (.number n) => .ok n
  | e => .error (.invalidNumber e)

/-- `number_to_expr`. -/
def numberToExpr (n : Int) : Expr := .constant (.number n)

/-- `expr_to_boolean`: `Nil` and the empty quote are false, all else true.
(The Rust function is declared fallible but never fails; modelled total.) -/
def exprToBoolean : Expr → Bool
  | .nil => false
  | .quote [] => false
  | _ => true

/-- `boolean_to_expr`: true is `Constant(Symbol("T"))`, false is `Nil`. -/
def booleanToExpr : Bool → Expr
  | false => .nil
  | true => .constant (.symbol "T")

/-- `numbers`: coerce a list, failing fast at the first non-number. -/
def numbers : List Expr → Except Error (List Int)
  | [] => .ok []
  | e :: es => do
    let n ← exprToNumber e
    let ns ← numbers es
    .ok (n :: ns)

/-- `tail.windows(2).all(p)`: every adjacent pair satisfies `p`. -/
def adjAll (p : Expr → Expr → Bool) : List Expr → Bool
  | a :: b :: rest => p a b && adjAll p (b :: rest)
  | _ => true

/-- The pair test of the `logic!` macro: both sides must be
`Constant(Number(_))` and satisfy the comparison; otherwise false. -/
def numPair (op : Int → Int → Bool) : Expr → Expr → Bool
  | .constant (.number m), .constant (.number n) => op m n
  | _, _ => false

/-- Left fold of native division; division by zero is the host panic. -/
def divFold : Int → List Int → Except Error Int
  | acc, [] => .ok acc
  | acc, n :: ns =>
    if n = 0 then .error .panicDivByZero else divFold (acc.tdiv n) ns

mutual

/-- The curry / substitution engine (`curry` in eval.rs).  Returns the
rewritten expression together with the final `marked` state; the state is
returned on the error path as well, since the Rust slice is mutated in
place before any failure. -/
def curry (e : Expr) (left right : List Expr) (marked : List Bool) :
    Except Error Expr × List Bool :=
  match left.findIdx? (fun it => it == e) with
  | some index =>
    let marked := marked.set index true
    match right[index]? with
    | some parameter => (.ok parameter, marked)
    | none => (.error .indexOutOfBounds, marked)
  | none =>
    match e with
    | .call head tail =>
      match curry head left right marked with
      | (.error err, m) => (.error err, m)
      | (.ok head', m) =>
        match curryList tail left right m with
        | (.error err, m') => (.error err, m')
        | (.ok tail', m') => (.ok (.call head' tail'), m')
    | .ite predicate thenB otherwise =>
      match curry predicate left right marked with
      | (.error err, m) => (.error err, m)
      | (.ok predicate', m) =>
        match curry thenB left right m with
        | (.error err, m') => (.error err, m')
        | (.ok thenB', m') =>
          match otherwise with
          | none => (.ok (.ite predicate' thenB' none), m')
          | some branch =>
            match curry branch left right m' with
            | (.ok branch', m'') => (.ok (.ite predicate' thenB' (some branch')), m'')
            | (.error _, m'') => (.ok (.ite predicate' thenB' none), m'')
    | it => (.ok it, marked)
termination_by structural e

/-- `curry` mapped over the argument list of a `Call`, threading marks and
stopping at the first failure. -/
def curryList (es : List Expr) (left right : List Expr) (marked : List Bool) :
    Except Error (List Expr) × List Bool :=
  match es with
  | [] => (.ok [], marked)
  | e :: rest =>
    match curry e left right marked with
    | (.error err, m) => (.error err, m)
    | (.ok e', m) =>
      match curryList rest left right m with
      | (.error err, m') => (.error err, m')
      | (.ok rest', m') => (.ok (e' :: rest'), m')
termination_by structural es

end

/-- The built-in dispatch of `Context::eval` (lines 158-199), over the
already-evaluated argument list `tail`.  `-` and `/` reproduce the source
quirk that a non-number first argument is reported as the arity error. -/
def applyBuiltIn (b : BuiltIn) (tail : List Expr) : Except Error Expr :=
  match b with
  | .greater => .ok (booleanToExpr (adjAll (numPair (fun a b => a > b)) tail))
  | .less => .ok (booleanToExpr (adjAll (numPair (fun a b => a < b)) tail))
  | .greaterEqual => .ok (booleanToExpr (adjAll (numPair (fun a b => a ≥ b)) tail))
  | .lessEqual => .ok (booleanToExpr (adjAll (numPair (fun a b => a ≤ b)) tail))
  | .plus => do
    let ns ← numbers tail
    .ok (numberToExpr (ns.foldl (fun a b => wrap32 (a + b)) 0))
  | .minus =>
    match tail with
    | [] => .error (.minusArity 0)
    | e :: rest =>
      match exprToNumber e with
      | .error _ => .error (.minusArity (rest.length + 1))
      | .ok c => do
        let ns ← numbers rest
        .ok (numberToExpr (ns.foldl (fun a b => wrap32 (a - b)) c))
  | .times => do
    let ns ← numbers tail
    .ok (numberToExpr (ns.foldl (fun a b => wrap32 (a * b)) 1))
  | .equal => .ok (booleanToExpr (adjAll (fun a b => beqExpr a b) tail))
  | .notEqual => .ok (booleanToExpr (adjAll (fun a b => !beqExpr a b) tail))
  | .and => .ok (booleanToExpr ((tail.map exprToBoolean).all (fun b => b)))
  | .or => .ok (booleanToExpr ((tail.map exprToBoolean).any (fun b => b)))
  | .divide =>
    match tail with
    | [] => .error (.divideArity 0)
    | e :: rest =>
      match exprToNumber e with
      | .error _ => .error (.divideArity (rest.length + 1))
      | .ok c => do
        let ns ← numbers rest
        let q ← divFold c ns
        .ok (numberToExpr q)
  | .not =>
    match tail with
    | [e] => .ok (booleanToExpr (!exprToBoolean e))
    | _ => .error (.notArity tail.length)

/-- The residual parameter list of a `Function` call: drop every parameter
whose index was marked by `curry` (lines 145-149 of eval.rs). -/
def residualParams (params : List Expr) (marked : List Bool) : List Expr :=
  (params.zip marked).filterMap (fun pm => if pm.2 then none else some pm.1)

/-- Eager left-to-right evaluation of a `Call`'s argument list, with the
recursive evaluator passed in as `f`; stops at the first failure, keeping
the environment mutations made so far. -/
def evalList (f : Env → Expr → Env × Except Error Expr) :
    Env → List Expr → Env × Except Error (List Expr)
  | env, [] => (env, .ok [])
  | env, e :: es =>
    match f env e with
    | (env', .error err) => (env', .error err)
    | (env', .ok v) =>
      match evalList f env' es with
      | (env'', .error err) => (env'', .error err)
      | (env'', .ok vs) => (env'', .ok (v :: vs))

/-- The `Let` loop of `Context::eval` (lines 111-121): each pair's atom must
be a symbol, its expression is evaluated and the result inserted; a failure
aborts, keeping the insertions already made. -/
def evalLet (f : Env → Expr → Env × Except Error Expr) :
    Env → List (Atom × Expr) → Env × Except Error Expr
  | env, [] => (env, .ok .nil)
  | env, (a, rhs) :: rest =>
    match a with
    | .symbol name =>
      match f env rhs with
      | (env', .error err) => (env', .error err)
      | (env', .ok v) => evalLet f (envInsert env' name v) rest
    | _ => (env, .error (.expectedSymbol a))

/-- One step of the trampoline of `Context::eval`, parameterised by the
evaluator `f` used for recursive (and trampolined) evaluation. -/
def evalStep (f : Env → Expr → Env × Except Error Expr) (env : Env) :
    Expr → Env × Except Error Expr
  | .constant (.symbol s) =>
    match envLookup env s with
    | some v => (env, .ok v)
    | none => (env, .error (.invalidVariable s))
  | .constant a => (env, .ok (.constant a))
  | .quote items => (env, .ok (.quote items))
  | .lett items => evalLet f env items
  | .ite predicate thenB otherwise =>
    match f env predicate with
    | (env', .error err) => (env', .error err)
    | (env', .ok p) =>
      if exprToBoolean p then f env' thenB
      else
        match otherwise with
        | some branch => f env' branch
        | none => (env', .error (.noBranch p))
  | .call head tail =>
    match f env head with
    | (env', .error err) => (env', .error err)
    | (env', .ok h) =>
      match evalList f env' tail with
      | (env'', .error err) => (env'', .error err)
      | (env'', .ok args) =>
        match h with
        | .function params body =>
          match curry body params args (params.map (fun _ => false)) with
          | (.error err, _) => (env'', .error err)
          | (.ok body', marked) =>
            let residual := residualParams params marked
            if residual.isEmpty then f env'' body'
            else (env'', .ok (.function residual body'))
        | .constant (.builtIn b) => (env'', applyBuiltIn b args)
        | v => (env'', .ok v)
  | e => (env, .ok e)

/-- `Context::eval`, with the trampoline loop and all recursive calls paid
for by a fuel parameter; `fuel = 0` yields the embedding-only `.outOfFuel`. -/
def eval : Nat → Env → Expr → Env × Except Error Expr
  | 0, env, _ => (env, .error .outOfFuel)
  | fuel + 1, env, e => evalStep (eval fuel) env e

/-- The symbol expression `x`. -/
def varX : Expr := .constant (.symbol "x")

/-- The symbol expression `y`. -/
def varY : Expr := .constant (.symbol "y")

/-- The number literal expression `n`. -/
def numE (n : Int) : Expr := .constant (.number n)

/-- The `+` operator expression. -/
def plusE : Expr := .constant (.builtIn .plus)

/-- The `*` operator expression. -/
def timesE : Expr := .constant (.builtIn .times)

/-- The `/` operator expression. -/
def divE : Expr := .constant (.builtIn .divide)

/-- The `<` operator expression. -/
def lessE : Expr := .constant (.builtIn .less)

/-- Whether an expression is a number constant (the domain on which
`expr_to_number` succeeds). -/
def isNumberExpr : Expr → Bool
  | .constant (.number _) => true
  | _ => false

/-! ## Helper lemmas -/

/-- When the node `e` itself matches a parameter (the `position` guard of
`curry` finds an index), `curry` marks that index and returns the
corresponding argument, or fails out of bounds when there is none. -/
theorem curry_found (e : Expr) (left right : List Expr) (marked : List Bool)
    (i : Nat) (hfind : left.findIdx? (fun it => it == e) = some i) :
    curry e left right marked =
      match right[i]? with
      | some parameter => (.ok parameter, marked.set i true)
      | none => (.error .indexOutOfBounds, marked.set i true) := by
  have step : ∃ fb, curry e left right marked =
      match left.findIdx? (fun it => it == e) with
      | some index =>
        (match right[index]? with
         | some parameter => (.ok parameter, marked.set index true)
         | none => (.error .indexOutOfBounds, marked.set index true))
      | none => fb := by
    cases e <;> (delta curry; exact ⟨_, rfl⟩)
  obtain ⟨fb, hstep⟩ := step
  rw [hstep, hfind]

/-- Unfolding equation of `curry` at an `If` node carrying an `otherwise`
branch (the shape claim C2 is about). -/
theorem curry_ite_some_eq (predicate thenB branch : Expr)
    (left right : List Expr) (marked : List Bool) :
    curry (.ite predicate thenB (some branch)) left right marked =
      match left.findIdx? (fun it => it == Expr.ite predicate thenB (some branch)) with
      | some index =>
        (match right[index]? with
         | some parameter => (.ok parameter, marked.set index true)
         | none => (.error .indexOutOfBounds, marked.set index true))
      | none =>
        match curry predicate left right marked with
        | (.error err, m) => (.error err, m)
        | (.ok predicate', m) =>
          match curry thenB left right m with
          | (.error err, m') => (.error err, m')
          | (.ok thenB', m') =>
            match curry branch left right m' with
            | (.ok branch', m'') =>
              (.ok (.ite predicate' thenB' (some branch')), m'')
            | (.error _, m'') => (.ok (.ite predicate' thenB' none), m'') := by
  delta curry
  rfl

theorem eval_succ (fuel : Nat) (env : Env) (e : Expr) :
    eval (fuel + 1) env e = evalStep (eval fuel) env e := rfl

theorem eval_numE (fuel : Nat) (env : Env) (n : Int) :
    eval (fuel + 1) env (numE n) = (env, .ok (numE n)) := rfl

theorem evalList_numE (fuel : Nat) (env : Env) (ns : List Int) :
    evalList (eval (fuel + 1)) env (ns.map numE) = (env, .ok (ns.map numE)) := by
  induction ns with
  | nil => rfl
  | cons n ns ih => simp [evalList, eval_numE, ih]

theorem numbers_map_numE (ns : List Int) : numbers (ns.map numE) = .ok ns := by
  induction ns with
  | nil => rfl
  | cons n ns ih => simp only [List.map_cons, numbers, exprToNumber, numE, ih]; rfl

theorem exprToNumber_of_not_number (w : Expr) (hw : isNumberExpr w = false) :
    exprToNumber w = .error (.invalidNumber w) := by
  cases w with
  | constant a => cases a <;> simp_all [isNumberExpr, exprToNumber]
  | _ => rfl

theorem numbers_append_bad (pre : List Int) (w : Expr) (rest : List Expr)
    (hw : isNumberExpr w = false) :
    numbers (pre.map numE ++ w :: rest) = .error (.invalidNumber w) := by
  induction pre with
  | nil => simp only [List.map_nil, List.nil_append, numbers,
      exprToNumber_of_not_number w hw]; rfl
  | cons n pre ih => simp only [List.map_cons, List.cons_append, numbers,
      exprToNumber, numE, List.append_eq, ih]; rfl

theorem evalList_numE_mid (fuel : Nat) (env : Env) (pre rest : List Int)
    (v w : Expr) (hv : eval (fuel + 1) env v = (env, .ok w)) :
    evalList (eval (fuel + 1)) env (pre.map numE ++ v :: rest.map numE) =
      (env, .ok (pre.map numE ++ w :: rest.map numE)) := by
  induction pre with
  | nil => simp [evalList, hv, evalList_numE]
  | cons n pre ih => simp [evalList, eval_numE, ih]

theorem isI32_wrap32 (a : Int) : isI32 (wrap32 a) := by
  unfold isI32 wrap32
  omega

theorem wrap32_eq_self (a : Int) (h : isI32 a) : wrap32 a = a := by
  unfold isI32 at h
  unfold wrap32
  omega

theorem wrap32_emod (a : Int) : wrap32 a % 4294967296 = a % 4294967296 := by
  unfold wrap32
  omega

theorem wrap32_congr (a b : Int) (h : a % 4294967296 = b % 4294967296) :
    wrap32 a = wrap32 b := by
  unfold wrap32
  omega

theorem wrap32_add_wrap_left (a b : Int) :
    wrap32 (wrap32 a + b) = wrap32 (a + b) := by
  unfold wrap32
  omega

theorem wrap32_mul_wrap_left (a b : Int) :
    wrap32 (wrap32 a * b) = wrap32 (a * b) := by
  apply wrap32_congr
  calc wrap32 a * b % 4294967296
      = wrap32 a % 4294967296 * (b % 4294967296) % 4294967296 := by
        rw [← Int.mul_emod]
    _ = a % 4294967296 * (b % 4294967296) % 4294967296 := by rw [wrap32_emod]
    _ = a * b % 4294967296 := by rw [← Int.mul_emod]

theorem foldl_wrap_add (ns : List Int) :
    ∀ a : Int, isI32 a →
      ns.foldl (fun x y => wrap32 (x + y)) a = wrap32 (a + ns.sum) := by
  induction ns with
  | nil =>
    intro a ha
    simp [wrap32_eq_self a ha]
  | cons n ns ih =>
    intro a ha
    simp only [List.foldl_cons, List.sum_cons]
    rw [ih (wrap32 (a + n)) (isI32_wrap32 _), wrap32_add_wrap_left, add_assoc]

theorem foldl_wrap_mul (ns : List Int) :
    ∀ a : Int, isI32 a →
      ns.foldl (fun x y => wrap32 (x * y)) a = wrap32 (a * ns.prod) := by
  induction ns with
  | nil =>
    intro a ha
    simp [wrap32_eq_self a ha]
  | cons n ns ih =>
    intro a ha
    simp only [List.foldl_cons, List.prod_cons]
    rw [ih (wrap32 (a * n)) (isI32_wrap32 _), wrap32_mul_wrap_left, mul_assoc]

theorem exprToBoolean_booleanToExpr (b : Bool) :
    exprToBoolean (booleanToExpr b) = b := by cases b <;> rfl

theorem numPair_eq_true_iff (R : Int → Int → Prop) [DecidableRel R] (a b : Expr) :
    numPair (fun m n => decide (R m n)) a b = true ↔
      ∃ m n : Int, a = numE m ∧ b = numE n ∧ R m n := by
  cases a with
  | constant x =>
    cases x with
    | number m =>
      cases b with
      | constant y => cases y <;> simp [numPair, numE]
      | _ => simp [numPair, numE]
    | _ => simp [numPair, numE]
  | _ => simp [numPair, numE]

theorem adjAll_numPair_chain (R : Int → Int → Prop) [DecidableRel R]
    (tail : List Expr) :
    adjAll (numPair (fun m n => decide (R m n))) tail = true ↔
      tail.Chain' (fun a b => ∃ m n : Int, a = numE m ∧ b = numE n ∧ R m n) := by
  induction tail with
  | nil => simp [adjAll]
  | cons a rest ih =>
    cases rest with
    | nil => simp [adjAll]
    | cons b rest' =>
      rw [List.chain'_cons, ← ih]
      simp [adjAll, numPair_eq_true_iff R a b]

theorem evalLet_append (f : Env → Expr → Env × Except Error Expr)
    (good : List (Atom × Expr)) :
    ∀ (env env' : Env) (more : List (Atom × Expr)),
      evalLet f env good = (env', .ok .nil) →
      evalLet f env (good ++ more) = evalLet f env' more := by
  induction good with
  | nil =>
    intro env env' more h
    simp only [evalLet] at h
    obtain ⟨rfl, -⟩ := Prod.mk.injEq .. ▸ h
    simp
  | cons pair good ih =>
    intro env env' more h
    obtain ⟨a, rhs⟩ := pair
    cases a with
    | symbol name =>
      simp only [evalLet] at h ⊢
      cases hf : f env rhs with
      | mk e1 r =>
        cases r with
        | error err => rw [hf] at h; simp at h
        | ok v =>
          rw [hf] at h
          simp only at h
          simp only [List.cons_append, List.append_eq, evalLet, hf]
          exact ih _ _ _ h
    | number n => simp [evalLet] at h
    | builtIn b => simp [evalLet] at h

theorem okBind {α β : Type} (a : α) (f : α → Except Error β) :
    (Except.ok a >>= f) = f a := rfl

theorem errBind {α β : Type} (e : Error) (f : α → Except Error β) :
    ((Except.error e : Except Error α) >>= f) = Except.error e := rfl

/-! ## Claims -/

/-- Claim C1 (amended): for `i32` values `v`, `w`, evaluating
`Call(Function([x,y], Call(+,[x,y])), [v])` with a single argument fails
with the index-out-of-bounds substitution error, because the body
references `y` and no argument was supplied for it; supplying both numeric
arguments fully reduces the call to the numeric sum wrapped to 32 bits,
which is the exact sum `v + w` whenever that sum is representable. -/
theorem call_plus_function_one_and_two_args (v w : Int) (env : Env)
    (hv : isI32 v) (hw : isI32 w) :
    eval 10 env (.call (.function [varX, varY] (.call plusE [varX, varY])) [numE v])
      = (env, .error .indexOutOfBounds)
    ∧ eval 10 env (.call (.function [varX, varY] (.call plusE [varX, varY])) [numE v, numE w])
      = (env, .ok (numE (wrap32 (v + w))))
    ∧ (isI32 (v + w) →
      eval 10 env (.call (.function [varX, varY] (.call plusE [varX, varY])) [numE v, numE w])
        = (env, .ok (numE (v + w)))) := by
  have h : eval 10 env
      (.call (.function [varX, varY] (.call plusE [varX, varY])) [numE v, numE w])
      = (env, .ok (numE (wrap32 (wrap32 (0 + v) + w)))) := rfl
  have h2 : wrap32 (wrap32 (0 + v) + w) = wrap32 (v + w) := by
    rw [Int.zero_add, wrap32_add_wrap_left]
  refine ⟨rfl, ?_, fun hs => ?_⟩
  · rw [h, h2]
  · rw [h, h2, wrap32_eq_self _ hs]

/-- Claim C1, witness: `Function([x,y], (+ x y))` applied to both `5` and
`7` (in range, with representable sum) reduces to `12`. -/
theorem call_plus_function_one_and_two_args_witness :
    eval 10 [] (.call (.function [varX, varY] (.call plusE [varX, varY])) [numE 5, numE 7])
      = ([], .ok (numE 12)) :=
  (call_plus_function_one_and_two_args 5 7 [] (by norm_num [isI32])
    (by norm_num [isI32])).2.2 (by norm_num [isI32])

/-- Claim C1, counterexample to the claim as stated: with one argument the
call evaluates to the index-out-of-bounds error, not to the residual
function `Function([y], Call(+,[5,y]))`. -/
theorem call_plus_function_one_arg_errors :
    eval 10 [] (.call (.function [varX, varY] (.call plusE [varX, varY])) [numE 5])
      = ([], .error .indexOutOfBounds)
    ∧ eval 10 [] (.call (.function [varX, varY] (.call plusE [varX, varY])) [numE 5])
      ≠ ([], .ok (.function [varY] (.call plusE [numE 5, varY]))) := by
  refine ⟨rfl, fun hc => ?_⟩
  have h : eval 10 [] (.call (.function [varX, varY] (.call plusE [varX, varY])) [numE 5])
      = (([] : Env), .error .indexOutOfBounds) := rfl
  exact absurd (h.symm.trans hc) (by simp)

/-- Claim C2 (amended): in `curry`, when substitution into a present
`otherwise` branch fails, the resulting `If` node drops the branch (it
becomes absent), keeping the marks mutated by the failed attempt, while a
failure in `pred` or `then` propagates as a substitution error. -/
theorem curry_ite_otherwise_failure_drops_branch (left right : List Expr)
    (p t ob : Expr) (m : List Bool)
    (hnode : left.findIdx? (fun it => it == Expr.ite p t (some ob)) = none) :
    (∀ p' m1 t' m2 err m3,
      curry p left right m = (.ok p', m1) →
      curry t left right m1 = (.ok t', m2) →
      curry ob left right m2 = (.error err, m3) →
      curry (.ite p t (some ob)) left right m = (.ok (.ite p' t' none), m3))
    ∧ (∀ err m1,
      curry p left right m = (.error err, m1) →
      curry (.ite p t (some ob)) left right m = (.error err, m1))
    ∧ (∀ p' m1 err m2,
      curry p left right m = (.ok p', m1) →
      curry t left right m1 = (.error err, m2) →
      curry (.ite p t (some ob)) left right m = (.error err, m2)) := by
  refine ⟨fun p' m1 t' m2 err m3 hp ht hob => ?_,
    fun err m1 hp => ?_, fun p' m1 err m2 hp ht => ?_⟩
  · simp only [curry_ite_some_eq, hnode, hp, ht, hob]
  · simp only [curry_ite_some_eq, hnode, hp]
  · simp only [curry_ite_some_eq, hnode, hp, ht]

/-- Claim C2, witness: a concrete instance of the three modes, at
`If(Nil, Nil, x)` with parameter list `[x]` and no arguments. -/
theorem curry_ite_otherwise_failure_drops_branch_witness :
    curry (.ite .nil .nil (some varX)) [varX] [] [false]
      = (.ok (.ite .nil .nil none), [true]) :=
  (curry_ite_otherwise_failure_drops_branch [varX] [] .nil .nil varX [false]
    rfl).1 .nil [false] .nil [false] .indexOutOfBounds [true] rfl rfl rfl

/-- Claim C2, counterexample to the claim as stated: the failed `otherwise`
branch is not kept unchanged, it is dropped from the rebuilt `If` node. -/
theorem curry_ite_otherwise_branch_not_kept :
    curry (.ite .nil .nil (some varX)) [varX] [] [false]
      = (.ok (.ite .nil .nil none), [true])
    ∧ Expr.ite .nil .nil none ≠ Expr.ite .nil .nil (some varX) := by
  refine ⟨rfl, fun hc => ?_⟩
  have := (Expr.ite.injEq .. ▸ hc).2.2
  exact Option.noConfusion this

/-- Claim C4: a body node equal to `params[i]` whose index has no
corresponding argument (`i ≥ len(args)`) makes `curry` fail with the
index-out-of-bounds error, after marking index `i`. -/
theorem curry_unsubstituted_param_out_of_bounds (e : Expr)
    (left right : List Expr) (marked : List Bool) (i : Nat)
    (hfind : left.findIdx? (fun it => it == e) = some i)
    (hlen : right.length ≤ i) :
    curry e left right marked = (.error .indexOutOfBounds, marked.set i true) := by
  rw [curry_found e left right marked i hfind, List.getElem?_eq_none hlen]

/-- Claim C4, witness: the body `x` with parameter list `[x]` and no
arguments fails out of bounds at index 0. -/
theorem curry_unsubstituted_param_out_of_bounds_witness :
    curry varX [varX] [] [false] = (.error .indexOutOfBounds, [true]) :=
  curry_unsubstituted_param_out_of_bounds varX [varX] [] [false] 0 rfl
    (Nat.le_refl 0)

/-- Claim C9: division by zero is unguarded in the source (native `/` on the
host); in this total embedding the guarded divide-by-zero branch is reached
and evaluation of `(/ 1 0)` ends in the fatal `panicDivByZero`, which is
none of the typed evaluation errors and not a value. -/
theorem divide_by_zero_panics :
    eval 2 [] (.call divE [numE 1, numE 0]) = ([], .error .panicDivByZero) := rfl

/-- Claim C7: looking up a symbol absent from the environment fails with the
unbound-variable error naming that symbol, and returns the environment
unchanged. -/
theorem unknown_symbol_fails (fuel : Nat) (env : Env) (name : String)
    (h : envLookup env name = none) :
    eval (fuel + 1) env (.constant (.symbol name))
      = (env, .error (.invalidVariable name)) := by
  rw [eval_succ]
  simp only [evalStep, h]

/-- Claim C7, witness: the empty environment has no binding for `z`. -/
theorem unknown_symbol_fails_witness :
    eval 1 [] (.constant (.symbol "z")) = ([], .error (.invalidVariable "z")) :=
  unknown_symbol_fails 0 [] "z" rfl

/-- Claim C8: a `Call` whose head reduces to a value that is neither a
`Function` nor a built-in returns that value unchanged, discarding the
(successfully) evaluated arguments; it is not an error. -/
theorem call_non_callable_returns_head (fuel : Nat) (env env1 env2 : Env)
    (h : Expr) (args : List Expr) (v : Expr) (vals : List Expr)
    (hh : eval fuel env h = (env1, .ok v))
    (ha : evalList (eval fuel) env1 args = (env2, .ok vals))
    (hnf : ∀ ps b, v ≠ .function ps b)
    (hnb : ∀ b, v ≠ .constant (.builtIn b)) :
    eval (fuel + 1) env (.call h args) = (env2, .ok v) := by
  rw [eval_succ]
  simp only [evalStep, hh, ha]

/-- Claim C8, witness: calling `Nil` with no arguments returns `Nil`. -/
theorem call_non_callable_returns_head_witness :
    eval 2 [] (.call .nil []) = ([], .ok .nil) :=
  call_non_callable_returns_head 1 [] [] [] .nil [] .nil [] rfl rfl
    (fun _ps _b hc => Expr.noConfusion hc) (fun _b hc => Expr.noConfusion hc)

/-- Claim C3 (amended): when the head of a call reduces to a function and
the arguments evaluate, after `curry` succeeds over the body the residual
parameter list drops exactly the indices marked by the curry pass; an empty
residual list continues the trampoline on the substituted body, a non-empty
one returns a new `Function` with the residual parameters and that body. -/
theorem call_function_residual (fuel : Nat) (env env1 env2 : Env)
    (h : Expr) (args : List Expr) (params : List Expr) (body : Expr)
    (tail : List Expr) (body' : Expr) (marked : List Bool)
    (hh : eval fuel env h = (env1, .ok (.function params body)))
    (ha : evalList (eval fuel) env1 args = (env2, .ok tail))
    (hc : curry body params tail (params.map (fun _ => false)) = (.ok body', marked)) :
    eval (fuel + 1) env (.call h args) =
      if (residualParams params marked).isEmpty then eval fuel env2 body'
      else (env2, .ok (.function (residualParams params marked) body')) := by
  rw [eval_succ]
  simp only [evalStep, hh, ha, hc]

/-- Claim C3, witness: the identity function `Function([x], x)` applied to
`7` saturates (the only parameter is marked and dropped) and the trampoline
yields `7`. -/
theorem call_function_residual_witness :
    eval 4 [] (.call (.function [varX] varX) [numE 7]) = ([], .ok (numE 7)) :=
  call_function_residual 3 [] [] [] (.function [varX] varX) [numE 7]
    [varX] varX [numE 7] (numE 7) [true] rfl rfl rfl

/-- Claim C3, counterexample to the claim as stated: in
`Call(Function([x,y], If(x, x, y)), [5])` the index of `y` is marked by the
failed (and swallowed) substitution inside `otherwise`, although `y` has no
corresponding argument (`args[1]` does not exist), so a marked index is not
always one substituted by its argument; the call even saturates. -/
theorem marked_without_argument :
    curry (.ite varX varX (some varY)) [varX, varY] [numE 5]
        (([varX, varY] : List Expr).map (fun _ => false))
      = (.ok (.ite (numE 5) (numE 5) none), [true, true])
    ∧ ([numE 5] : List Expr)[1]? = none
    ∧ eval 10 [] (.call (.function [varX, varY] (.ite varX varX (some varY))) [numE 5])
      = ([], .ok (numE 5)) :=
  ⟨rfl, rfl, rfl⟩

/-- Claim C10: `Let` evaluation is not atomic: once the leading pairs have
succeeded and committed their insertions, a failing pair (non-symbol atom,
or failing right-hand side) propagates its error while the environment
keeps every insertion already made. -/
theorem lett_keeps_committed_insertions (fuel : Nat) (env env' : Env)
    (good : List (Atom × Expr)) (a : Atom) (rhs : Expr)
    (rest : List (Atom × Expr))
    (hgood : evalLet (eval fuel) env good = (env', .ok .nil)) :
    ((∀ s, a ≠ .symbol s) →
      eval (fuel + 1) env (.lett (good ++ (a, rhs) :: rest))
        = (env', .error (.expectedSymbol a)))
    ∧ (∀ s env2 err, a = .symbol s →
      eval fuel env' rhs = (env2, .error err) →
      eval (fuel + 1) env (.lett (good ++ (a, rhs) :: rest))
        = (env2, .error err)) := by
  constructor
  · intro hns
    rw [eval_succ]
    simp only [evalStep]
    rw [evalLet_append (eval fuel) good env env' _ hgood]
    cases a with
    | symbol s => exact absurd rfl (hns s)
    | number n => rfl
    | builtIn b => rfl
  · intro s env2 err ha hrhs
    subst ha
    rw [eval_succ]
    simp only [evalStep]
    rw [evalLet_append (eval fuel) good env env' _ hgood]
    simp only [evalLet, hrhs]

/-- Claim C10, witness: after `x` is bound to `5`, the non-symbol atom `0`
in the next pair aborts the `Let`, and the returned environment still holds
the committed binding of `x`. -/
theorem lett_keeps_committed_insertions_witness :
    eval 2 [] (.lett [(.symbol "x", numE 5), (.number 0, .nil)])
      = ([("x", numE 5)], .error (.expectedSymbol (.number 0))) :=
  (lett_keeps_committed_insertions 1 [] [("x", numE 5)] [(.symbol "x", numE 5)]
    (.number 0) .nil [] rfl).1 (fun _s hc => Atom.noConfusion hc)

/-- Claim C5 (amended): over lists of number constants, `+` returns the sum
and `*` the product computed with wrapping 32-bit (`i32`) arithmetic — equal
to the mathematical sum and product whenever those are representable, in
particular 0 and 1 for the empty list; an argument list containing an
evaluated value that is not a number constant makes both fail with the
invalid-number coercion error naming that value. -/
theorem plus_times_over_numbers (fuel : Nat) (env : Env)
    (ns pre rest : List Int) (v w : Expr) :
    (eval (fuel + 2) env (.call plusE (ns.map numE))
      = (env, .ok (numE (wrap32 ns.sum))))
    ∧ (eval (fuel + 2) env (.call timesE (ns.map numE))
      = (env, .ok (numE (wrap32 ns.prod))))
    ∧ (isI32 ns.sum →
      eval (fuel + 2) env (.call plusE (ns.map numE)) = (env, .ok (numE ns.sum)))
    ∧ (isI32 ns.prod →
      eval (fuel + 2) env (.call timesE (ns.map numE)) = (env, .ok (numE ns.prod)))
    ∧ (eval (fuel + 1) env v = (env, .ok w) → isNumberExpr w = false →
        (eval (fuel + 2) env (.call plusE (pre.map numE ++ v :: rest.map numE))
          = (env, .error (.invalidNumber w)))
        ∧ (eval (fuel + 2) env (.call timesE (pre.map numE ++ v :: rest.map numE))
          = (env, .error (.invalidNumber w)))) := by
  have hplus : eval (fuel + 1) env plusE = (env, .ok plusE) := rfl
  have htimes : eval (fuel + 1) env timesE = (env, .ok timesE) := rfl
  have hsum : eval (fuel + 2) env (.call plusE (ns.map numE))
      = (env, .ok (numE (wrap32 ns.sum))) := by
    show evalStep (eval (fuel + 1)) env (.call plusE (ns.map numE)) = _
    simp only [evalStep, hplus, evalList_numE, applyBuiltIn, numbers_map_numE,
      okBind]
    rw [foldl_wrap_add ns 0 (by norm_num [isI32]), Int.zero_add]
    rfl
  have hprod : eval (fuel + 2) env (.call timesE (ns.map numE))
      = (env, .ok (numE (wrap32 ns.prod))) := by
    show evalStep (eval (fuel + 1)) env (.call timesE (ns.map numE)) = _
    simp only [evalStep, htimes, evalList_numE, applyBuiltIn, numbers_map_numE,
      okBind]
    rw [foldl_wrap_mul ns 1 (by norm_num [isI32]), Int.one_mul]
    rfl
  refine ⟨hsum, hprod, fun hs => ?_, fun hp => ?_, fun hv hw => ⟨?_, ?_⟩⟩
  · rw [hsum, wrap32_eq_self _ hs]
  · rw [hprod, wrap32_eq_self _ hp]
  · show evalStep (eval (fuel + 1)) env
      (.call plusE (pre.map numE ++ v :: rest.map numE)) = _
    simp only [evalStep, hplus, evalList_numE_mid fuel env pre rest v w hv,
      applyBuiltIn, numbers_append_bad pre w (rest.map numE) hw, errBind]
    rfl
  · show evalStep (eval (fuel + 1)) env
      (.call timesE (pre.map numE ++ v :: rest.map numE)) = _
    simp only [evalStep, htimes, evalList_numE_mid fuel env pre rest v w hv,
      applyBuiltIn, numbers_append_bad pre w (rest.map numE) hw, errBind]
    rfl

/-- Claim C5, counterexample to the claim as stated: the program's `i32`
addition wraps, so `(+ 2147483647 1)` evaluates to `-2147483648`, not to
`number_to_expr` of the mathematical sum `2147483648`. -/
theorem plus_wraps_at_i32_max :
    eval 3 [] (.call plusE [numE 2147483647, numE 1])
      = ([], .ok (numE (-2147483648)))
    ∧ (([] : Env), (Except.ok (numE (-2147483648)) : Except Error Expr))
      ≠ ([], Except.ok (numE 2147483648)) := by
  refine ⟨rfl, fun hc => ?_⟩
  simp only [Prod.mk.injEq, Except.ok.injEq, numE, Expr.constant.injEq,
    Atom.number.injEq, true_and] at hc
  omega

/-- Claim C5, witness: `(+ 1 Nil 2)` and `(* 1 Nil 2)` fail with the
invalid-number error naming `Nil`. -/
theorem plus_times_over_numbers_witness :
    eval 3 [] (.call plusE [numE 1, .nil, numE 2])
      = ([], .error (.invalidNumber .nil))
    ∧ eval 3 [] (.call timesE [numE 1, .nil, numE 2])
      = ([], .error (.invalidNumber .nil)) :=
  (plus_times_over_numbers 1 [] [] [1] [2] .nil .nil).2.2.2.2 rfl rfl

/-- Claim C6: the comparison built-ins over an already-evaluated argument
list never fail, and return the truthy value exactly when every adjacent
pair is two number constants satisfying the relation (so lists of length at
most one are vacuously true, and a pair with a non-number makes the chain
false, not an error); concretely, `(< 1 2 3)` is true and `(< 1 3 2)` is
false. -/
theorem comparison_chain_semantics (tail : List Expr) :
    (∃ r, applyBuiltIn .less tail = .ok r ∧
      (exprToBoolean r = true ↔
        tail.Chain' (fun a b => ∃ m n : Int, a = numE m ∧ b = numE n ∧ m < n)))
    ∧ (∃ r, applyBuiltIn .greater tail = .ok r ∧
      (exprToBoolean r = true ↔
        tail.Chain' (fun a b => ∃ m n : Int, a = numE m ∧ b = numE n ∧ m > n)))
    ∧ (∃ r, applyBuiltIn .lessEqual tail = .ok r ∧
      (exprToBoolean r = true ↔
        tail.Chain' (fun a b => ∃ m n : Int, a = numE m ∧ b = numE n ∧ m ≤ n)))
    ∧ (∃ r, applyBuiltIn .greaterEqual tail = .ok r ∧
      (exprToBoolean r = true ↔
        tail.Chain' (fun a b => ∃ m n : Int, a = numE m ∧ b = numE n ∧ m ≥ n)))
    ∧ eval 2 [] (.call lessE [numE 1, numE 2, numE 3])
        = ([], .ok (booleanToExpr true))
    ∧ eval 2 [] (.call lessE [numE 1, numE 3, numE 2])
        = ([], .ok (booleanToExpr false)) := by
  refine ⟨⟨_, rfl, ?_⟩, ⟨_, rfl, ?_⟩, ⟨_, rfl, ?_⟩, ⟨_, rfl, ?_⟩, rfl, rfl⟩ <;>
    rw [exprToBoolean_booleanToExpr]
  · exact adjAll_numPair_chain (· < ·) tail
  · exact adjAll_numPair_chain (· > ·) tail
  · exact adjAll_numPair_chain (· ≤ ·) tail
  · exact adjAll_numPair_chain (· ≥ ·) tail

end Crisp
